import Mathlib

/-!
Verification development for the roller-coaster track store
(`src/client/src/lib/stores/useRollerCoaster.tsx`).

The store is a single synchronous state module.  We shallowly embed it:

* `Vec3` models `THREE.Vector3` over the real numbers (the source's
  floating-point trigonometry is idealised as exact real arithmetic);
* `TrackPoint` and `RollerCoasterState` mirror the `TrackPoint` interface
  and the zustand state object; the module-level mutable `pointCounter`
  becomes an explicit field of the state record;
* each public operation of the store becomes a function
  `RollerCoasterState → RollerCoasterState`;
* `Op`/`applyOp`/`runOps` give the transition system generated by the
  public operations, used for reachability invariants.
-/

/-- Model of `THREE.Vector3`: a 3D coordinate over ℝ. -/
structure Vec3 where
  x : ℝ
  y : ℝ
  z : ℝ

/-- Model of `THREE.Vector3.clone()`: a fresh value-copy of the vector. -/
def Vec3.clone (v : Vec3) : Vec3 := ⟨v.x, v.y, v.z⟩

/-- Model of `THREE.Vector3.sub(b)`: componentwise subtraction. -/
def Vec3.sub (a b : Vec3) : Vec3 := ⟨a.x - b.x, a.y - b.y, a.z - b.z⟩

/-- Model of `THREE.Vector3.length()`: the Euclidean norm
`sqrt(x*x + y*y + z*z)`. -/
noncomputable def Vec3.len (v : Vec3) : ℝ :=
  Real.sqrt (v.x * v.x + v.y * v.y + v.z * v.z)

/-- Model of `THREE.Vector3.normalize()`: `divideScalar(length() || 1)`,
i.e. divide each component by the norm, or by 1 when the norm is 0. -/
noncomputable def Vec3.normalize (v : Vec3) : Vec3 :=
  let l := if v.len = 0 then 1 else v.len
  ⟨v.x / l, v.y / l, v.z / l⟩

/-- The `CoasterMode` union type: `"build" | "ride" | "preview"`. -/
inductive CoasterMode where
  | build
  | ride
  | preview
deriving DecidableEq

/-- The `TrackPoint` interface: id string, 3D position, banking tilt. -/
structure TrackPoint where
  id : String
  position : Vec3
  tilt : ℝ

/-- The zustand store state.  All fields of `RollerCoasterState` that are
data (not functions), plus the module-level mutable counter
`let pointCounter = 0`, which we thread explicitly. -/
structure RollerCoasterState where
  mode : CoasterMode
  trackPoints : List TrackPoint
  selectedPointId : Option String
  rideProgress : ℝ
  isRiding : Bool
  rideSpeed : ℝ
  isDraggingPoint : Bool
  isAddingPoints : Bool
  isLooped : Bool
  hasChainLift : Bool
  showWoodSupports : Bool
  isNightMode : Bool
  cameraTarget : Option Vec3
  pointCounter : Nat

/-- The initial store contents passed to `create(...)` (and
`pointCounter = 0`). -/
def initialState : RollerCoasterState where
  mode := CoasterMode.build
  trackPoints := []
  selectedPointId := none
  rideProgress := 0
  isRiding := false
  rideSpeed := 1
  isDraggingPoint := false
  isAddingPoints := true
  isLooped := false
  hasChainLift := true
  showWoodSupports := false
  isNightMode := false
  cameraTarget := none
  pointCounter := 0

/-- The id string minted for counter value `n`: `` `point-${n}` ``. -/
def mkId (n : Nat) : String := "point-" ++ Nat.repr n

/-- `setMode: (mode) => set({ mode })`. -/
def setMode (mode : CoasterMode) (s : RollerCoasterState) : RollerCoasterState :=
  { s with mode := mode }

/-- `setCameraTarget: (target) => set({ cameraTarget: target })`. -/
def setCameraTarget (target : Option Vec3) (s : RollerCoasterState) : RollerCoasterState :=
  { s with cameraTarget := target }

/-- `setIsDraggingPoint: (dragging) => set({ isDraggingPoint: dragging })`. -/
def setIsDraggingPoint (dragging : Bool) (s : RollerCoasterState) : RollerCoasterState :=
  { s with isDraggingPoint := dragging }

/-- `setIsAddingPoints: (adding) => set({ isAddingPoints: adding })`. -/
def setIsAddingPoints (adding : Bool) (s : RollerCoasterState) : RollerCoasterState :=
  { s with isAddingPoints := adding }

/-- `setIsLooped: (looped) => set({ isLooped: looped })`. -/
def setIsLooped (looped : Bool) (s : RollerCoasterState) : RollerCoasterState :=
  { s with isLooped := looped }

/-- `setHasChainLift: (hasChain) => set({ hasChainLift: hasChain })`. -/
def setHasChainLift (hasChain : Bool) (s : RollerCoasterState) : RollerCoasterState :=
  { s with hasChainLift := hasChain }

/-- `setShowWoodSupports: (show) => set({ showWoodSupports: show })`. -/
def setShowWoodSupports (show' : Bool) (s : RollerCoasterState) : RollerCoasterState :=
  { s with showWoodSupports := show' }

/-- `setIsNightMode: (night) => set({ isNightMode: night })`. -/
def setIsNightMode (night : Bool) (s : RollerCoasterState) : RollerCoasterState :=
  { s with isNightMode := night }

/-- `addTrackPoint`: append a point with id `` `point-${++pointCounter}` ``,
a cloned position, and `tilt: 0`. -/
def addTrackPoint (position : Vec3) (s : RollerCoasterState) : RollerCoasterState :=
  let newCounter := s.pointCounter + 1
  { s with
    pointCounter := newCounter
    trackPoints :=
      s.trackPoints ++ [{ id := mkId newCounter, position := position.clone, tilt := 0 }] }

/-- `updateTrackPoint`: map over the points, replacing the position (with
a clone) of every point whose id matches. -/
def updateTrackPoint (id : String) (position : Vec3) (s : RollerCoasterState) :
    RollerCoasterState :=
  { s with
    trackPoints := s.trackPoints.map fun point =>
      if point.id == id then { point with position := position.clone } else point }

/-- `updateTrackPointTilt`: map over the points, replacing the tilt of
every point whose id matches. -/
def updateTrackPointTilt (id : String) (tilt : ℝ) (s : RollerCoasterState) :
    RollerCoasterState :=
  { s with
    trackPoints := s.trackPoints.map fun point =>
      if point.id == id then { point with tilt := tilt } else point }

/-- `removeTrackPoint`: filter out the matching point(s); clear the
selection when it equals the removed id. -/
def removeTrackPoint (id : String) (s : RollerCoasterState) : RollerCoasterState :=
  { s with
    trackPoints := s.trackPoints.filter fun point => !(point.id == id)
    selectedPointId := if s.selectedPointId = some id then none else s.selectedPointId }

/-- Default used to model the (always in-bounds) array accesses
`state.trackPoints[pointIndex]` / `[pointIndex - 1]`. -/
def defaultPoint : TrackPoint := { id := "", position := ⟨0, 0, 0⟩, tilt := 0 }

/-- The forward-direction computation of `createLoopAtPoint`
(source lines 120–130): default `(1,0,0)`; when the anchor has a
predecessor, normalize `pos - prev`, zero the y component, and either fall
back to `(1,0,0)` (when the horizontal magnitude is below `0.1`) or
re-normalize. -/
noncomputable def loopDirection (trackPoints : List TrackPoint) (pointIndex : Nat)
    (pos : Vec3) : Vec3 :=
  if 0 < pointIndex then
    let prevPoint := trackPoints.getD (pointIndex - 1) defaultPoint
    let d := (pos.sub prevPoint.position).normalize
    let d2 : Vec3 := ⟨d.x, 0, d.z⟩
    if d2.len < 0.1 then ⟨1, 0, 0⟩ else d2.normalize
  else ⟨1, 0, 0⟩

/-- The positions emitted by `createLoopAtPoint` (source lines 132–201), in
push order: lead-in, loop body for `i` in `0..=16` skipping `i = 0` and
`i = 16`, then the two lead-out points. -/
noncomputable def loopPositions (pos direction : Vec3) : List Vec3 :=
  let loopRadius : ℝ := 10
  let numLoopPoints : Nat := 16
  let loopCenterForward := loopRadius
  let loopCenterX := pos.x + direction.x * loopCenterForward
  let loopCenterZ := pos.z + direction.z * loopCenterForward
  let loopCenterY := pos.y + loopRadius
  let leadIn : Vec3 := ⟨pos.x + direction.x * 3, pos.y + 2, pos.z + direction.z * 3⟩
  let body := (List.range (numLoopPoints + 1)).filterMap fun i =>
    if i = 0 ∨ i = numLoopPoints then none
    else
      let angle : ℝ := -Real.pi / 2 + ((i : ℝ) / (numLoopPoints : ℝ)) * Real.pi * 2
      let forwardOffset := Real.cos angle * loopRadius
      let heightOffset := Real.sin angle * loopRadius
      some ⟨loopCenterX + direction.x * forwardOffset,
            loopCenterY + heightOffset,
            loopCenterZ + direction.z * forwardOffset⟩
  let exitForward := loopCenterForward + loopRadius
  let out1 : Vec3 := ⟨pos.x + direction.x * (exitForward + 3), pos.y + 2,
                      pos.z + direction.z * (exitForward + 3)⟩
  let out2 : Vec3 := ⟨pos.x + direction.x * (exitForward + 8), pos.y,
                      pos.z + direction.z * (exitForward + 8)⟩
  leadIn :: (body ++ [out1, out2])

/-- Assign fresh sequential ids (`` `point-${++pointCounter}` ``) and
`tilt: 0` to a list of positions, in push order; returns the new points
together with the final counter value. -/
def assignIds : Nat → List Vec3 → List TrackPoint × Nat
  | counter, [] => ([], counter)
  | counter, p :: ps =>
    let rest := assignIds (counter + 1) ps
    ({ id := mkId (counter + 1), position := p, tilt := 0 } :: rest.1, rest.2)

/-- `createLoopAtPoint`: no-op when the id is not found; otherwise splice
the emitted run (lead-in, loop body, lead-out, with fresh ids) into the
sequence immediately after the anchor's index. -/
noncomputable def createLoopAtPoint (id : String) (s : RollerCoasterState) :
    RollerCoasterState :=
  match s.trackPoints.findIdx? (fun p => p.id == id) with
  | none => s
  | some pointIndex =>
    let basePoint := s.trackPoints.getD pointIndex defaultPoint
    let pos := basePoint.position
    let direction := loopDirection s.trackPoints pointIndex pos
    let made := assignIds s.pointCounter (loopPositions pos direction)
    { s with
      trackPoints :=
        s.trackPoints.take (pointIndex + 1) ++ made.1 ++ s.trackPoints.drop (pointIndex + 1)
      pointCounter := made.2 }

/-- `selectPoint: (id) => set({ selectedPointId: id })`. -/
def selectPoint (id : Option String) (s : RollerCoasterState) : RollerCoasterState :=
  { s with selectedPointId := id }

/-- `clearTrack`: empty the track, clear the selection, reset progress,
stop riding. -/
def clearTrack (s : RollerCoasterState) : RollerCoasterState :=
  { s with trackPoints := [], selectedPointId := none, rideProgress := 0, isRiding := false }

/-- `setRideProgress: (progress) => set({ rideProgress: progress })`. -/
def setRideProgress (progress : ℝ) (s : RollerCoasterState) : RollerCoasterState :=
  { s with rideProgress := progress }

/-- `setIsRiding: (riding) => set({ isRiding: riding })`. -/
def setIsRiding (riding : Bool) (s : RollerCoasterState) : RollerCoasterState :=
  { s with isRiding := riding }

/-- `setRideSpeed: (speed) => set({ rideSpeed: speed })`. -/
def setRideSpeed (speed : ℝ) (s : RollerCoasterState) : RollerCoasterState :=
  { s with rideSpeed := speed }

/-- `startRide`: guarded — when `trackPoints.length >= 2`, set
`mode = "ride"`, `isRiding = true`, `rideProgress = 0`; otherwise do
nothing. -/
def startRide (s : RollerCoasterState) : RollerCoasterState :=
  if 2 ≤ s.trackPoints.length then
    { s with mode := CoasterMode.ride, isRiding := true, rideProgress := 0 }
  else s

/-- `stopRide`: unconditional `mode = "build"`, `isRiding = false`,
`rideProgress = 0`. -/
def stopRide (s : RollerCoasterState) : RollerCoasterState :=
  { s with mode := CoasterMode.build, isRiding := false, rideProgress := 0 }

/-- One public operation of the store, with its arguments. -/
inductive Op where
  | setMode (mode : CoasterMode)
  | setCameraTarget (target : Option Vec3)
  | setIsDraggingPoint (dragging : Bool)
  | setIsAddingPoints (adding : Bool)
  | setIsLooped (looped : Bool)
  | setHasChainLift (hasChain : Bool)
  | setShowWoodSupports (show' : Bool)
  | setIsNightMode (night : Bool)
  | addTrackPoint (position : Vec3)
  | updateTrackPoint (id : String) (position : Vec3)
  | updateTrackPointTilt (id : String) (tilt : ℝ)
  | removeTrackPoint (id : String)
  | createLoopAtPoint (id : String)
  | selectPoint (id : Option String)
  | clearTrack
  | setRideProgress (progress : ℝ)
  | setIsRiding (riding : Bool)
  | setRideSpeed (speed : ℝ)
  | startRide
  | stopRide

/-- Apply one public operation to a state. -/
noncomputable def applyOp (o : Op) (s : RollerCoasterState) : RollerCoasterState :=
  match o with
  | Op.setMode mode => setMode mode s
  | Op.setCameraTarget target => setCameraTarget target s
  | Op.setIsDraggingPoint dragging => setIsDraggingPoint dragging s
  | Op.setIsAddingPoints adding => setIsAddingPoints adding s
  | Op.setIsLooped looped => setIsLooped looped s
  | Op.setHasChainLift hasChain => setHasChainLift hasChain s
  | Op.setShowWoodSupports show' => setShowWoodSupports show' s
  | Op.setIsNightMode night => setIsNightMode night s
  | Op.addTrackPoint position => addTrackPoint position s
  | Op.updateTrackPoint id position => updateTrackPoint id position s
  | Op.updateTrackPointTilt id tilt => updateTrackPointTilt id tilt s
  | Op.removeTrackPoint id => removeTrackPoint id s
  | Op.createLoopAtPoint id => createLoopAtPoint id s
  | Op.selectPoint id => selectPoint id s
  | Op.clearTrack => clearTrack s
  | Op.setRideProgress progress => setRideProgress progress s
  | Op.setIsRiding riding => setIsRiding riding s
  | Op.setRideSpeed speed => setRideSpeed speed s
  | Op.startRide => startRide s
  | Op.stopRide => stopRide s

/-- Run a sequence of public operations left to right. -/
noncomputable def runOps : List Op → RollerCoasterState → RollerCoasterState
  | [], s => s
  | o :: os, s => runOps os (applyOp o s)

/-- Structural-recursion presentation of the decimal digit list produced
by `Nat.toDigitsCore 10`. -/
def repDigits (n : Nat) : List Char :=
  if n < 10 then [Nat.digitChar n]
  else repDigits (n / 10) ++ [Nat.digitChar (n % 10)]
termination_by n
decreasing_by exact Nat.div_lt_self (by omega) (by omega)

/-- Numeric value of a digit character. -/
def digitVal (c : Char) : Nat := c.toNat - 48

/-- Decimal value of a digit list (most significant first). -/
def valDigits (cs : List Char) : Nat := cs.foldl (fun a c => 10 * a + digitVal c) 0

/-- All ids of a point list are minted ids with counter value at most `c`. -/
def Bnd (c : Nat) (l : List TrackPoint) : Prop :=
  ∀ p ∈ l, ∃ k, k ≤ c ∧ p.id = mkId k

/-- Well-formedness of a state: the point ids are pairwise distinct, and
every id was minted with a counter value at most `pointCounter`. -/
def WF (s : RollerCoasterState) : Prop :=
  (s.trackPoints.map TrackPoint.id).Nodup ∧ Bnd s.pointCounter s.trackPoints

/-- A single track point at the origin, with the first minted id. -/
def pOne : TrackPoint := { id := mkId 1, position := ⟨0, 0, 0⟩, tilt := 0 }

/-- A second track point away from the origin. -/
def pTwo : TrackPoint := { id := mkId 2, position := ⟨4, 0, 3⟩, tilt := 0 }

/-- A point sharing `pOne`'s id (an ill-formed, unreachable configuration). -/
def dupPoint : TrackPoint := { id := mkId 1, position := ⟨1, 1, 1⟩, tilt := 0 }

/-- State holding exactly the origin point. -/
def onePointState : RollerCoasterState :=
  { initialState with trackPoints := [pOne], pointCounter := 1 }

/-- State holding two points with distinct ids. -/
def twoPointState : RollerCoasterState :=
  { initialState with trackPoints := [pOne, pTwo], pointCounter := 2 }

/-- State with an empty track but a dangling selection. -/
def ghostState : RollerCoasterState :=
  { initialState with selectedPointId := some "ghost" }

/-- State with two points sharing one id (violating the documented
invariant; not reachable through the public operations). -/
def dupState : RollerCoasterState :=
  { initialState with trackPoints := [pOne, dupPoint], pointCounter := 1 }

/-- Operations that write `mode` or `isRiding` directly, without the
`startRide`/`stopRide` coupling. -/
def touchesRideFlags (o : Op) : Bool :=
  match o with
  | Op.setMode _ => true
  | Op.setIsRiding _ => true
  | _ => false

/-- Following the spec's words: the loop-body angle for subdivision `i`,
`-π/2 + (i/16)·2π`. -/
noncomputable def specLoopAngle (i : Nat) : ℝ :=
  -Real.pi / 2 + ((i : ℝ) / 16) * (2 * Real.pi)

/-- Following the spec's words: loop-body point `i`, on the circle of
radius 10 centred at `(10, 10, 0)` (for an anchor at the origin and
forward direction `(1,0,0)`). -/
noncomputable def specLoopBodyPoint (i : Nat) : Vec3 :=
  ⟨10 + 10 * Real.cos (specLoopAngle i), 10 + 10 * Real.sin (specLoopAngle i), 0⟩

/-!
Injectivity of the minted id strings.  `mkId n = "point-" ++ Nat.repr n`,
so we verify `Nat.repr` against a decimal decoder.
-/

theorem repDigits_of_lt (n : Nat) (h : n < 10) : repDigits n = [Nat.digitChar n] := by
  rw [repDigits, if_pos h]

theorem repDigits_of_ge (n : Nat) (h : ¬ n < 10) :
    repDigits n = repDigits (n / 10) ++ [Nat.digitChar (n % 10)] := by
  rw [repDigits]
  exact if_neg h

theorem toDigitsCore_eq_repDigits :
    ∀ (fuel n : Nat) (ds : List Char), n < fuel →
      Nat.toDigitsCore 10 fuel n ds = repDigits n ++ ds := by
  intro fuel
  induction fuel with
  | zero => intro n ds h; omega
  | succ fuel ih =>
    intro n ds h
    rw [Nat.toDigitsCore]
    by_cases hdiv : n / 10 = 0
    · have hlt : n < 10 := by omega
      rw [if_pos hdiv, repDigits_of_lt n hlt, Nat.mod_eq_of_lt hlt]
      simp
    · have hge : ¬ n < 10 := by
        intro hc
        exact hdiv (Nat.div_eq_of_lt hc)
      have hn0 : 0 < n := by omega
      have hfuel : n / 10 < fuel := by
        have := Nat.div_lt_self hn0 (by omega : 1 < 10)
        omega
      rw [if_neg hdiv, ih (n / 10) _ hfuel, repDigits_of_ge n hge]
      simp

theorem repr_eq_repDigits (n : Nat) : Nat.repr n = (repDigits n).asString := by
  rw [Nat.repr, Nat.toDigits, toDigitsCore_eq_repDigits (n + 1) n [] (by omega)]
  simp

theorem digitVal_digitChar : ∀ d, d < 10 → digitVal (Nat.digitChar d) = d := by decide

theorem valDigits_append_singleton (l : List Char) (c : Char) :
    valDigits (l ++ [c]) = 10 * valDigits l + digitVal c := by
  simp [valDigits, List.foldl_append]

theorem valDigits_repDigits : ∀ n, valDigits (repDigits n) = n := by
  intro n
  induction n using Nat.strong_induction_on with
  | _ n ih =>
    by_cases h : n < 10
    · rw [repDigits_of_lt n h]
      simp [valDigits, digitVal_digitChar n h]
    · rw [repDigits_of_ge n h]
      have hn0 : 0 < n := by omega
      have hlt : n / 10 < n := Nat.div_lt_self hn0 (by omega)
      rw [valDigits_append_singleton, ih (n / 10) hlt,
        digitVal_digitChar (n % 10) (Nat.mod_lt n (by omega))]
      omega

theorem repDigits_injective : Function.Injective repDigits := by
  intro a b h
  have := congrArg valDigits h
  rwa [valDigits_repDigits, valDigits_repDigits] at this

theorem mkId_injective : Function.Injective mkId := by
  intro a b h
  have hdata := congrArg String.data h
  simp only [mkId, String.data_append] at hdata
  have hrepr : (Nat.repr a).data = (Nat.repr b).data :=
    List.append_cancel_left hdata
  rw [repr_eq_repDigits, repr_eq_repDigits] at hrepr
  exact repDigits_injective hrepr

/-!
Properties of `assignIds` and of the id sets appearing in a state.
-/

theorem assignIds_snd : ∀ (ps : List Vec3) (c : Nat), (assignIds c ps).2 = c + ps.length := by
  intro ps
  induction ps with
  | nil => intro c; simp [assignIds]
  | cons p ps ih =>
    intro c
    simp only [assignIds, List.length_cons, ih (c + 1)]
    omega

theorem assignIds_map_position :
    ∀ (ps : List Vec3) (c : Nat), (assignIds c ps).1.map TrackPoint.position = ps := by
  intro ps
  induction ps with
  | nil => intro c; simp [assignIds]
  | cons p ps ih =>
    intro c
    simp [assignIds, ih (c + 1)]

theorem assignIds_length (ps : List Vec3) (c : Nat) :
    (assignIds c ps).1.length = ps.length := by
  have := congrArg List.length (assignIds_map_position ps c)
  simpa using this

theorem assignIds_tilt :
    ∀ (ps : List Vec3) (c : Nat), ∀ q ∈ (assignIds c ps).1, q.tilt = 0 := by
  intro ps
  induction ps with
  | nil => intro c q hq; simp [assignIds] at hq
  | cons p ps ih =>
    intro c q hq
    simp only [assignIds, List.mem_cons] at hq
    rcases hq with h | h
    · rw [h]
    · exact ih (c + 1) q h

theorem assignIds_map_id :
    ∀ (ps : List Vec3) (c : Nat),
      (assignIds c ps).1.map TrackPoint.id =
        (List.range ps.length).map (fun j => mkId (c + 1 + j)) := by
  intro ps
  induction ps with
  | nil => intro c; simp [assignIds]
  | cons p ps ih =>
    intro c
    rw [List.length_cons, List.range_succ_eq_map, List.map_cons, List.map_map]
    simp only [assignIds, List.map_cons]
    rw [ih (c + 1)]
    congr 1
    apply List.map_congr_left
    intro a _
    simp only [Function.comp]
    exact congrArg mkId (by omega)

theorem bnd_mono {c c' : Nat} {l : List TrackPoint} (hcc : c ≤ c') (h : Bnd c l) :
    Bnd c' l := by
  intro p hp
  obtain ⟨k, hk, hid⟩ := h p hp
  exact ⟨k, Nat.le_trans hk hcc, hid⟩

theorem bnd_sublist {c : Nat} {l l' : List TrackPoint} (hs : l'.Sublist l) (h : Bnd c l) :
    Bnd c l' := fun p hp => h p (hs.subset hp)

theorem bnd_assignIds (ps : List Vec3) (c : Nat) : Bnd (c + ps.length) (assignIds c ps).1 := by
  intro p hp
  have hmem : p.id ∈ (assignIds c ps).1.map TrackPoint.id := List.mem_map_of_mem _ hp
  rw [assignIds_map_id ps c] at hmem
  obtain ⟨j, hj, hid⟩ := List.mem_map.mp hmem
  exact ⟨c + 1 + j, by have := List.mem_range.mp hj; omega, hid.symm⟩

theorem assignIds_ids_nodup (ps : List Vec3) (c : Nat) :
    ((assignIds c ps).1.map TrackPoint.id).Nodup := by
  rw [assignIds_map_id ps c]
  apply List.Nodup.map _ (List.nodup_range _)
  intro a b hab
  have := mkId_injective hab
  omega

theorem bnd_disjoint_fresh {c : Nat} {l : List TrackPoint} (h : Bnd c l) (ps : List Vec3) :
    (l.map TrackPoint.id).Disjoint ((assignIds c ps).1.map TrackPoint.id) := by
  intro a ha hb
  obtain ⟨p, hp, rfl⟩ := List.mem_map.mp ha
  obtain ⟨k, hk, hid⟩ := h p hp
  rw [assignIds_map_id ps c] at hb
  obtain ⟨j, _, hj⟩ := List.mem_map.mp hb
  rw [hid] at hj
  have := mkId_injective hj
  omega

/-!
The reachability invariant: ids are pairwise distinct and all minted
below the current counter.
-/

theorem wf_initialState : WF initialState := by
  constructor
  · simp [initialState]
  · intro p hp
    simp [initialState] at hp

theorem wf_of_fields {s t : RollerCoasterState}
    (h1 : t.trackPoints = s.trackPoints) (h2 : t.pointCounter = s.pointCounter)
    (h : WF s) : WF t := by
  simp only [WF, h1, h2]
  exact h

theorem map_id_of_preserve (f : TrackPoint → TrackPoint) (hf : ∀ p, (f p).id = p.id)
    (l : List TrackPoint) : (l.map f).map TrackPoint.id = l.map TrackPoint.id := by
  rw [List.map_map]
  apply List.map_congr_left
  intro a _
  exact hf a

theorem bnd_map {c : Nat} {l : List TrackPoint} (f : TrackPoint → TrackPoint)
    (hf : ∀ p, (f p).id = p.id) (h : Bnd c l) : Bnd c (l.map f) := by
  intro q hq
  obtain ⟨p, hp, rfl⟩ := List.mem_map.mp hq
  obtain ⟨k, hk, hid⟩ := h p hp
  exact ⟨k, hk, by rw [hf p, hid]⟩

theorem wf_map {s : RollerCoasterState} {t : RollerCoasterState}
    (f : TrackPoint → TrackPoint) (hf : ∀ p, (f p).id = p.id)
    (h1 : t.trackPoints = s.trackPoints.map f) (h2 : t.pointCounter = s.pointCounter)
    (h : WF s) : WF t := by
  obtain ⟨hnd, hbnd⟩ := h
  constructor
  · rw [h1, map_id_of_preserve f hf]
    exact hnd
  · rw [h1, h2]
    exact bnd_map f hf hbnd

theorem updatePos_id (id : String) (v : Vec3) (p : TrackPoint) :
    (if p.id == id then { p with position := v.clone } else p).id = p.id := by
  split <;> rfl

theorem updateTilt_id (id : String) (t : ℝ) (p : TrackPoint) :
    (if p.id == id then { p with tilt := t } else p).id = p.id := by
  split <;> rfl

theorem wf_addTrackPoint (v : Vec3) (s : RollerCoasterState) (h : WF s) :
    WF (addTrackPoint v s) := by
  obtain ⟨hnd, hbnd⟩ := h
  constructor
  · simp only [addTrackPoint, List.map_append, List.map_cons, List.map_nil]
    rw [List.nodup_append]
    refine ⟨hnd, List.nodup_singleton _, ?_⟩
    intro a ha hb
    simp only [List.mem_singleton] at hb
    obtain ⟨p, hp, rfl⟩ := List.mem_map.mp ha
    obtain ⟨k, hk, hid⟩ := hbnd p hp
    rw [hid] at hb
    have := mkId_injective hb
    omega
  · intro p hp
    simp only [addTrackPoint, List.mem_append, List.mem_singleton] at hp
    rcases hp with hp | hp
    · obtain ⟨k, hk, hid⟩ := hbnd p hp
      exact ⟨k, by simp only [addTrackPoint]; omega, hid⟩
    · rw [hp]
      exact ⟨s.pointCounter + 1, Nat.le_refl _, rfl⟩

theorem wf_splice (l : List TrackPoint) (c i : Nat) (ps : List Vec3)
    (hnd : (l.map TrackPoint.id).Nodup) (hbnd : Bnd c l) :
    ((l.take (i + 1) ++ (assignIds c ps).1 ++ l.drop (i + 1)).map TrackPoint.id).Nodup
      ∧ Bnd (assignIds c ps).2 (l.take (i + 1) ++ (assignIds c ps).1 ++ l.drop (i + 1)) := by
  have hAD : ((l.take (i + 1)).map TrackPoint.id ++ (l.drop (i + 1)).map TrackPoint.id).Nodup := by
    rw [← List.map_append, List.take_append_drop]
    exact hnd
  obtain ⟨hA, hD, hADdisj⟩ := List.nodup_append.mp hAD
  have hTake : Bnd c (l.take (i + 1)) := bnd_sublist (List.take_sublist _ _) hbnd
  have hDrop : Bnd c (l.drop (i + 1)) := bnd_sublist (List.drop_sublist _ _) hbnd
  have hAF := bnd_disjoint_fresh hTake ps
  have hDF := bnd_disjoint_fresh hDrop ps
  constructor
  · simp only [List.map_append]
    rw [List.append_assoc, List.nodup_append]
    refine ⟨hA, ?_, ?_⟩
    · rw [List.nodup_append]
      exact ⟨assignIds_ids_nodup ps c, hD, hDF.symm⟩
    · intro a ha hb
      rcases List.mem_append.mp hb with hb | hb
      · exact hAF ha hb
      · exact hADdisj ha hb
  · intro p hp
    rw [assignIds_snd]
    rcases List.mem_append.mp hp with hp | hp
    · rcases List.mem_append.mp hp with hp | hp
      · exact bnd_mono (by omega) hTake p hp
      · have := bnd_assignIds ps c p hp
        obtain ⟨k, hk, hid⟩ := this
        exact ⟨k, by omega, hid⟩
    · exact bnd_mono (by omega) hDrop p hp

theorem wf_createLoopAtPoint (id : String) (s : RollerCoasterState) (h : WF s) :
    WF (createLoopAtPoint id s) := by
  obtain ⟨hnd, hbnd⟩ := h
  simp only [createLoopAtPoint]
  split
  · exact ⟨hnd, hbnd⟩
  · rename_i pointIndex hfi
    have := wf_splice s.trackPoints s.pointCounter pointIndex
      (loopPositions (s.trackPoints.getD pointIndex defaultPoint).position
        (loopDirection s.trackPoints pointIndex
          (s.trackPoints.getD pointIndex defaultPoint).position)) hnd hbnd
    exact ⟨this.1, this.2⟩

theorem wf_removeTrackPoint (id : String) (s : RollerCoasterState) (h : WF s) :
    WF (removeTrackPoint id s) := by
  obtain ⟨hnd, hbnd⟩ := h
  have hsub : (s.trackPoints.filter fun point => !(point.id == id)).Sublist s.trackPoints :=
    List.filter_sublist _
  constructor
  · exact List.Nodup.sublist (hsub.map TrackPoint.id) hnd
  · exact bnd_sublist hsub hbnd

theorem wf_clearTrack (s : RollerCoasterState) (h : WF s) : WF (clearTrack s) := by
  constructor
  · simp [clearTrack]
  · intro p hp
    simp [clearTrack] at hp

theorem wf_applyOp (o : Op) (s : RollerCoasterState) (h : WF s) : WF (applyOp o s) := by
  cases o with
  | setMode mode => exact wf_of_fields rfl rfl h
  | setCameraTarget target => exact wf_of_fields rfl rfl h
  | setIsDraggingPoint dragging => exact wf_of_fields rfl rfl h
  | setIsAddingPoints adding => exact wf_of_fields rfl rfl h
  | setIsLooped looped => exact wf_of_fields rfl rfl h
  | setHasChainLift hasChain => exact wf_of_fields rfl rfl h
  | setShowWoodSupports show' => exact wf_of_fields rfl rfl h
  | setIsNightMode night => exact wf_of_fields rfl rfl h
  | addTrackPoint position => exact wf_addTrackPoint position s h
  | updateTrackPoint id position =>
    exact wf_map _ (fun p => updatePos_id id position p) rfl rfl h
  | updateTrackPointTilt id tilt =>
    exact wf_map _ (fun p => updateTilt_id id tilt p) rfl rfl h
  | removeTrackPoint id => exact wf_removeTrackPoint id s h
  | createLoopAtPoint id => exact wf_createLoopAtPoint id s h
  | selectPoint id => exact wf_of_fields rfl rfl h
  | clearTrack => exact wf_clearTrack s h
  | setRideProgress progress => exact wf_of_fields rfl rfl h
  | setIsRiding riding => exact wf_of_fields rfl rfl h
  | setRideSpeed speed => exact wf_of_fields rfl rfl h
  | startRide =>
    show WF (startRide s)
    unfold startRide
    split
    · exact wf_of_fields rfl rfl h
    · exact h
  | stopRide => exact wf_of_fields rfl rfl h

theorem wf_runOps (ops : List Op) :
    ∀ s : RollerCoasterState, WF s → WF (runOps ops s) := by
  induction ops with
  | nil => intro s h; exact h
  | cons o os ih => intro s h; exact ih (applyOp o s) (wf_applyOp o s h)

/-!
Helper lemmas about the no-op behaviour on missing ids, and concrete
states used as witnesses.
-/

theorem map_if_eq_self (g : TrackPoint → TrackPoint) (id : String) :
    ∀ l : List TrackPoint, id ∉ l.map TrackPoint.id →
      (l.map fun p => if p.id == id then g p else p) = l := by
  intro l
  induction l with
  | nil => intro _; rfl
  | cons p l ih =>
    intro h
    simp only [List.map_cons, List.mem_cons, not_or] at h
    obtain ⟨h1, h2⟩ := h
    have hne : (p.id == id) = false := beq_eq_false_iff_ne.mpr (fun hc => h1 hc.symm)
    rw [List.map_cons, hne]
    simp only [Bool.false_eq_true, if_false]
    rw [ih h2]

theorem filter_ne_eq_self (id : String) (l : List TrackPoint)
    (h : id ∉ l.map TrackPoint.id) :
    (l.filter fun p => !(p.id == id)) = l := by
  apply List.filter_eq_self.mpr
  intro p hp
  have : p.id ≠ id := by
    intro hc
    exact h (hc ▸ List.mem_map_of_mem TrackPoint.id hp)
  simp [this]

theorem findIdx?_none_of_not_mem (id : String) (l : List TrackPoint)
    (h : id ∉ l.map TrackPoint.id) :
    l.findIdx? (fun p => p.id == id) = none := by
  apply List.findIdx?_eq_none_iff.mpr
  intro p hp
  have : p.id ≠ id := by
    intro hc
    exact h (hc ▸ List.mem_map_of_mem TrackPoint.id hp)
  simp [this]

/-- C2: `startRide` changes `mode`/`isRiding`/`rideProgress` exactly when
the track has at least 2 points, and leaves everything else alone; on a
track with fewer than 2 points it is a complete no-op. -/
theorem startRide_spec (s : RollerCoasterState) :
    (s.trackPoints.length < 2 → startRide s = s) ∧
    (2 ≤ s.trackPoints.length →
      (startRide s).mode = CoasterMode.ride ∧
      (startRide s).isRiding = true ∧
      (startRide s).rideProgress = 0 ∧
      (startRide s).trackPoints = s.trackPoints ∧
      (startRide s).selectedPointId = s.selectedPointId ∧
      (startRide s).rideSpeed = s.rideSpeed ∧
      (startRide s).isDraggingPoint = s.isDraggingPoint ∧
      (startRide s).isAddingPoints = s.isAddingPoints ∧
      (startRide s).isLooped = s.isLooped ∧
      (startRide s).hasChainLift = s.hasChainLift ∧
      (startRide s).showWoodSupports = s.showWoodSupports ∧
      (startRide s).isNightMode = s.isNightMode ∧
      (startRide s).cameraTarget = s.cameraTarget ∧
      (startRide s).pointCounter = s.pointCounter) := by
  constructor
  · intro h
    simp [startRide, Nat.not_le.mpr h]
  · intro h
    simp [startRide, h]

/-- C2 witness: on a concrete 2-point track `startRide` starts the ride. -/
theorem startRide_spec_witness :
    (startRide twoPointState).mode = CoasterMode.ride ∧
    (startRide twoPointState).isRiding = true ∧
    (startRide twoPointState).rideProgress = 0 ∧
    (startRide twoPointState).trackPoints = twoPointState.trackPoints ∧
    (startRide twoPointState).selectedPointId = twoPointState.selectedPointId ∧
    (startRide twoPointState).rideSpeed = twoPointState.rideSpeed ∧
    (startRide twoPointState).isDraggingPoint = twoPointState.isDraggingPoint ∧
    (startRide twoPointState).isAddingPoints = twoPointState.isAddingPoints ∧
    (startRide twoPointState).isLooped = twoPointState.isLooped ∧
    (startRide twoPointState).hasChainLift = twoPointState.hasChainLift ∧
    (startRide twoPointState).showWoodSupports = twoPointState.showWoodSupports ∧
    (startRide twoPointState).isNightMode = twoPointState.isNightMode ∧
    (startRide twoPointState).cameraTarget = twoPointState.cameraTarget ∧
    (startRide twoPointState).pointCounter = twoPointState.pointCounter :=
  (startRide_spec twoPointState).2 (by decide)

/-- C9: `clearTrack` empties the track, clears the selection, resets the
progress, stops riding, and changes nothing else. -/
theorem clearTrack_spec (s : RollerCoasterState) :
    (clearTrack s).trackPoints = [] ∧
    (clearTrack s).selectedPointId = none ∧
    (clearTrack s).rideProgress = 0 ∧
    (clearTrack s).isRiding = false ∧
    (clearTrack s).mode = s.mode ∧
    (clearTrack s).rideSpeed = s.rideSpeed ∧
    (clearTrack s).isDraggingPoint = s.isDraggingPoint ∧
    (clearTrack s).isAddingPoints = s.isAddingPoints ∧
    (clearTrack s).isLooped = s.isLooped ∧
    (clearTrack s).hasChainLift = s.hasChainLift ∧
    (clearTrack s).showWoodSupports = s.showWoodSupports ∧
    (clearTrack s).isNightMode = s.isNightMode ∧
    (clearTrack s).cameraTarget = s.cameraTarget ∧
    (clearTrack s).pointCounter = s.pointCounter := by
  simp [clearTrack]

/-- C3 counterexample: with an empty track and a dangling selection
`some "ghost"`, `removeTrackPoint "ghost"` matches no point yet still
changes the state (it clears the selection), so the claim that every
operation is a complete no-op on a missing id is false. -/
theorem removeTrackPoint_dangling_selection :
    ("ghost" ∉ ghostState.trackPoints.map TrackPoint.id) ∧
    removeTrackPoint "ghost" ghostState ≠ ghostState := by
  constructor
  · simp [ghostState, initialState]
  · intro hc
    have h := congrArg RollerCoasterState.selectedPointId hc
    simp [removeTrackPoint, ghostState, initialState] at h

/-- C3 (amended): on an id matching no point, `updateTrackPoint`,
`updateTrackPointTilt` and `createLoopAtPoint` leave the state unchanged;
`removeTrackPoint` leaves the track unchanged and is a complete no-op
except that it clears a dangling selection equal to the missing id. -/
theorem missing_id_noop (s : RollerCoasterState) (id : String) (v : Vec3) (t : ℝ)
    (h : id ∉ s.trackPoints.map TrackPoint.id) :
    updateTrackPoint id v s = s ∧
    updateTrackPointTilt id t s = s ∧
    createLoopAtPoint id s = s ∧
    (removeTrackPoint id s).trackPoints = s.trackPoints ∧
    (s.selectedPointId ≠ some id → removeTrackPoint id s = s) ∧
    (s.selectedPointId = some id →
      removeTrackPoint id s = { s with selectedPointId := none }) := by
  refine ⟨?_, ?_, ?_, ?_, ?_, ?_⟩
  · show { s with trackPoints := _ } = s
    rw [map_if_eq_self _ id s.trackPoints h]
  · show { s with trackPoints := _ } = s
    rw [map_if_eq_self _ id s.trackPoints h]
  · simp [createLoopAtPoint, findIdx?_none_of_not_mem id s.trackPoints h]
  · show s.trackPoints.filter _ = s.trackPoints
    exact filter_ne_eq_self id s.trackPoints h
  · intro hsel
    show { s with trackPoints := _, selectedPointId := _ } = s
    rw [filter_ne_eq_self id s.trackPoints h, if_neg hsel]
  · intro hsel
    show { s with trackPoints := _, selectedPointId := _ } =
      { s with selectedPointId := none }
    rw [filter_ne_eq_self id s.trackPoints h, if_pos hsel]

/-- C3 witness: the amended no-op behaviour at a concrete state and id. -/
theorem missing_id_noop_witness :
    updateTrackPoint "ghost" ⟨1, 2, 3⟩ onePointState = onePointState ∧
    updateTrackPointTilt "ghost" 5 onePointState = onePointState ∧
    createLoopAtPoint "ghost" onePointState = onePointState ∧
    (removeTrackPoint "ghost" onePointState).trackPoints = onePointState.trackPoints ∧
    (onePointState.selectedPointId ≠ some "ghost" →
      removeTrackPoint "ghost" onePointState = onePointState) ∧
    (onePointState.selectedPointId = some "ghost" →
      removeTrackPoint "ghost" onePointState =
        { onePointState with selectedPointId := none }) :=
  missing_id_noop onePointState "ghost" ⟨1, 2, 3⟩ 5 (by decide)

/-- C4 counterexample: `setIsRiding true` from the initial state yields a
reachable state with `isRiding = true` while `mode` is still `build`, so
the claimed invariant over all public operations is false. -/
theorem setIsRiding_breaks_invariant :
    (runOps [Op.setIsRiding true] initialState).isRiding = true ∧
    (runOps [Op.setIsRiding true] initialState).mode ≠ CoasterMode.ride := by
  constructor
  · rfl
  · intro hc
    cases hc

/-- The mode of `createLoopAtPoint` is never changed. -/
theorem createLoop_mode (id : String) (s : RollerCoasterState) :
    (createLoopAtPoint id s).mode = s.mode := by
  simp only [createLoopAtPoint]
  split <;> rfl

/-- The riding flag of `createLoopAtPoint` is never changed. -/
theorem createLoop_isRiding (id : String) (s : RollerCoasterState) :
    (createLoopAtPoint id s).isRiding = s.isRiding := by
  simp only [createLoopAtPoint]
  split <;> rfl

/-- C4 (amended): along any operation sequence that never calls the
direct setters `setMode` and `setIsRiding`, every reachable state
satisfies `isRiding = true → mode = ride`. -/
theorem riding_only_in_ride_mode (ops : List Op)
    (h : ops.all (fun o => !(touchesRideFlags o)) = true) :
    (runOps ops initialState).isRiding = true →
      (runOps ops initialState).mode = CoasterMode.ride := by
  have key : ∀ (ops : List Op) (s : RollerCoasterState),
      ops.all (fun o => !(touchesRideFlags o)) = true →
      (s.isRiding = true → s.mode = CoasterMode.ride) →
      ((runOps ops s).isRiding = true → (runOps ops s).mode = CoasterMode.ride) := by
    intro ops
    induction ops with
    | nil => intro s _ hs; exact hs
    | cons o os ih =>
      intro s hall hs
      simp only [List.all_cons, Bool.and_eq_true] at hall
      obtain ⟨ho, hos⟩ := hall
      refine ih (applyOp o s) hos ?_
      cases o with
      | setMode m => simp [touchesRideFlags] at ho
      | setIsRiding b => simp [touchesRideFlags] at ho
      | setCameraTarget t => exact hs
      | setIsDraggingPoint b => exact hs
      | setIsAddingPoints b => exact hs
      | setIsLooped b => exact hs
      | setHasChainLift b => exact hs
      | setShowWoodSupports b => exact hs
      | setIsNightMode b => exact hs
      | addTrackPoint v => exact hs
      | updateTrackPoint id v => exact hs
      | updateTrackPointTilt id t => exact hs
      | removeTrackPoint id => exact hs
      | createLoopAtPoint id =>
        intro hr
        rw [show applyOp (Op.createLoopAtPoint id) s = createLoopAtPoint id s from rfl,
          createLoop_isRiding] at hr
        rw [show applyOp (Op.createLoopAtPoint id) s = createLoopAtPoint id s from rfl,
          createLoop_mode]
        exact hs hr
      | selectPoint id => exact hs
      | clearTrack => intro hc; simp [applyOp, clearTrack] at hc
      | setRideProgress r => exact hs
      | setRideSpeed r => exact hs
      | startRide =>
        show (startRide s).isRiding = true → (startRide s).mode = CoasterMode.ride
        unfold startRide
        split
        · intro _; rfl
        · exact hs
      | stopRide => intro hc; simp [applyOp, stopRide] at hc
  exact key ops initialState h (by intro hc; cases hc)

/-- C4 witness: a concrete sequence — add two points, start the ride —
reaches a state that is riding, and the amended invariant places it in
ride mode. -/
theorem riding_only_in_ride_mode_witness :
    (runOps [Op.addTrackPoint ⟨0, 0, 0⟩, Op.addTrackPoint ⟨4, 0, 3⟩, Op.startRide]
      initialState).mode = CoasterMode.ride :=
  riding_only_in_ride_mode
    [Op.addTrackPoint ⟨0, 0, 0⟩, Op.addTrackPoint ⟨4, 0, 3⟩, Op.startRide]
    (by decide) (by decide)

/-- C5: along every sequence of public operations from the initial state
the track ids are pairwise distinct, and a sequence of `addTrackPoint`
calls alone yields one point per call, with pairwise-distinct ids. -/
theorem trackPoint_ids_nodup :
    (∀ ops : List Op, ((runOps ops initialState).trackPoints.map TrackPoint.id).Nodup) ∧
    (∀ ps : List Vec3,
      (runOps (ps.map Op.addTrackPoint) initialState).trackPoints.length = ps.length ∧
      ((runOps (ps.map Op.addTrackPoint) initialState).trackPoints.map
        TrackPoint.id).Nodup) := by
  have hmain : ∀ ops : List Op, WF (runOps ops initialState) :=
    fun ops => wf_runOps ops initialState wf_initialState
  constructor
  · exact fun ops => (hmain ops).1
  · intro ps
    refine ⟨?_, (hmain (ps.map Op.addTrackPoint)).1⟩
    have hlen : ∀ (qs : List Vec3) (s : RollerCoasterState),
        (runOps (qs.map Op.addTrackPoint) s).trackPoints.length
          = s.trackPoints.length + qs.length := by
      intro qs
      induction qs with
      | nil => intro s; simp [runOps]
      | cons q qs ih =>
        intro s
        rw [List.map_cons]
        show (runOps (qs.map Op.addTrackPoint) (addTrackPoint q s)).trackPoints.length = _
        rw [ih (addTrackPoint q s)]
        simp only [addTrackPoint, List.length_append, List.length_cons, List.length_nil,
          List.length_map]
        omega
    rw [hlen ps initialState]
    simp [initialState]

/-- Length bookkeeping for `removeTrackPoint` under distinct ids: when the
id occurs, the filter drops exactly one point. -/
theorem filter_remove_length :
    ∀ (l : List TrackPoint) (id : String),
      (l.map TrackPoint.id).Nodup → id ∈ l.map TrackPoint.id →
      (l.filter fun p => !(p.id == id)).length + 1 = l.length := by
  intro l id
  induction l with
  | nil => intro _ hm; simp at hm
  | cons p l ih =>
    intro hnd hm
    simp only [List.map_cons, List.nodup_cons] at hnd
    obtain ⟨hpid, hnd'⟩ := hnd
    by_cases hc : p.id = id
    · have hrest : (l.filter fun q => !(q.id == id)) = l := by
        apply filter_ne_eq_self
        rw [← hc]
        exact hpid
      have hhead : (p.id == id) = true := by simp [hc]
      simp [List.filter_cons, hhead, hrest]
    · have hhead : (p.id == id) = false := by simp [hc]
      simp only [List.map_cons, List.mem_cons] at hm
      rcases hm with hm | hm
      · exact absurd hm.symm hc
      · have hlen := ih hnd' hm
        simp only [List.filter_cons, hhead, Bool.not_false, if_true, List.length_cons]
        omega

/-- C7 counterexample: on a state with two points sharing an id (which
violates the documented id-uniqueness invariant), removing that id
shrinks the track by 2, not by 1, so the claim quantified over every
state is false. -/
theorem removeTrackPoint_duplicate_ids :
    (mkId 1 ∈ dupState.trackPoints.map TrackPoint.id) ∧
    ¬ ((removeTrackPoint (mkId 1) dupState).trackPoints.length + 1
        = dupState.trackPoints.length) := by
  constructor
  · simp [dupState, pOne, initialState]
  · decide

/-- C7 (amended): on every state whose point ids are pairwise distinct,
`removeTrackPoint` shrinks the track by exactly 1 when the id occurs and
by 0 otherwise, keeps the remaining points (values and relative order),
and clears the selection exactly when it equals the removed id. -/
theorem removeTrackPoint_spec (s : RollerCoasterState) (id : String)
    (hnd : (s.trackPoints.map TrackPoint.id).Nodup) :
    (id ∈ s.trackPoints.map TrackPoint.id →
      (removeTrackPoint id s).trackPoints.length + 1 = s.trackPoints.length) ∧
    (id ∉ s.trackPoints.map TrackPoint.id →
      (removeTrackPoint id s).trackPoints = s.trackPoints) ∧
    (removeTrackPoint id s).trackPoints.Sublist s.trackPoints ∧
    (∀ p ∈ s.trackPoints, p.id ≠ id → p ∈ (removeTrackPoint id s).trackPoints) ∧
    (removeTrackPoint id s).selectedPointId
      = (if s.selectedPointId = some id then none else s.selectedPointId) := by
  refine ⟨?_, ?_, ?_, ?_, rfl⟩
  · intro hm
    exact filter_remove_length s.trackPoints id hnd hm
  · intro hm
    exact filter_ne_eq_self id s.trackPoints hm
  · exact List.filter_sublist _
  · intro p hp hne
    exact List.mem_filter.mpr ⟨hp, by simp [hne]⟩

/-- C7 witness: the amended behaviour on a concrete well-formed 2-point
state, removing the first point. -/
theorem removeTrackPoint_spec_witness :
    (mkId 1 ∈ twoPointState.trackPoints.map TrackPoint.id →
      (removeTrackPoint (mkId 1) twoPointState).trackPoints.length + 1
        = twoPointState.trackPoints.length) ∧
    (mkId 1 ∉ twoPointState.trackPoints.map TrackPoint.id →
      (removeTrackPoint (mkId 1) twoPointState).trackPoints
        = twoPointState.trackPoints) ∧
    (removeTrackPoint (mkId 1) twoPointState).trackPoints.Sublist
      twoPointState.trackPoints ∧
    (∀ p ∈ twoPointState.trackPoints, p.id ≠ mkId 1 →
      p ∈ (removeTrackPoint (mkId 1) twoPointState).trackPoints) ∧
    (removeTrackPoint (mkId 1) twoPointState).selectedPointId
      = (if twoPointState.selectedPointId = some (mkId 1) then none
          else twoPointState.selectedPointId) :=
  removeTrackPoint_spec twoPointState (mkId 1) (by decide)

/-- C8 counterexample: on a state with two points sharing an id,
`updateTrackPoint` rewrites the positions of both, so no choice of "the
matching point" leaves every other point unchanged; the claim quantified
over every state is false. -/
theorem updateTrackPoint_duplicate_ids :
    (mkId 1 ∈ dupState.trackPoints.map TrackPoint.id) ∧
    ((updateTrackPoint (mkId 1) ⟨5, 5, 5⟩ dupState).trackPoints.getD 0 defaultPoint
      ≠ dupState.trackPoints.getD 0 defaultPoint) ∧
    ((updateTrackPoint (mkId 1) ⟨5, 5, 5⟩ dupState).trackPoints.getD 1 defaultPoint
      ≠ dupState.trackPoints.getD 1 defaultPoint) := by
  refine ⟨by simp [dupState, pOne, initialState], ?_, ?_⟩
  · intro hc
    have h := congrArg (fun q => q.position.x) hc
    simp [updateTrackPoint, dupState, pOne, dupPoint, initialState, Vec3.clone] at h
  · intro hc
    have h := congrArg (fun q => q.position.x) hc
    simp [updateTrackPoint, dupState, pOne, dupPoint, initialState, Vec3.clone] at h

/-- C8 (amended): on every state whose point ids are pairwise distinct,
`updateTrackPoint id p` keeps the length, replaces by value the position
of the unique matching point — keeping its id and tilt — and leaves every
other point unchanged; on a missing id the state is unchanged. -/
theorem updateTrackPoint_spec (s : RollerCoasterState) (id : String) (v : Vec3)
    (hnd : (s.trackPoints.map TrackPoint.id).Nodup) :
    (updateTrackPoint id v s).trackPoints.length = s.trackPoints.length ∧
    (id ∈ s.trackPoints.map TrackPoint.id →
      ∃ (j : Nat) (hj : j < s.trackPoints.length)
        (hj' : j < (updateTrackPoint id v s).trackPoints.length),
        (s.trackPoints.get ⟨j, hj⟩).id = id ∧
        (updateTrackPoint id v s).trackPoints.get ⟨j, hj'⟩
          = { s.trackPoints.get ⟨j, hj⟩ with position := v } ∧
        (∀ (k : Nat) (hk : k < s.trackPoints.length)
          (hk' : k < (updateTrackPoint id v s).trackPoints.length), k ≠ j →
          (updateTrackPoint id v s).trackPoints.get ⟨k, hk'⟩
            = s.trackPoints.get ⟨k, hk⟩)) ∧
    (id ∉ s.trackPoints.map TrackPoint.id → updateTrackPoint id v s = s) := by
  have hlen : (updateTrackPoint id v s).trackPoints.length = s.trackPoints.length :=
    List.length_map _ _
  refine ⟨hlen, ?_, ?_⟩
  · intro hm
    obtain ⟨p, hp, hpid⟩ := List.mem_map.mp hm
    obtain ⟨⟨j, hj⟩, hget⟩ := List.mem_iff_get.mp hp
    have hjid : (s.trackPoints.get ⟨j, hj⟩).id = id := by rw [hget, hpid]
    refine ⟨j, hj, by omega, hjid, ?_, ?_⟩
    · show (s.trackPoints.map _).get _ = _
      simp only [List.get_eq_getElem, List.getElem_map]
      rw [List.get_eq_getElem] at hjid
      simp [hjid, Vec3.clone]
    · intro k hk hk' hkj
      have hkid : (s.trackPoints.get ⟨k, hk⟩).id ≠ id := by
        intro hc
        apply hkj
        have hk2 : k < (s.trackPoints.map TrackPoint.id).length := by
          rw [List.length_map]; exact hk
        have hj2 : j < (s.trackPoints.map TrackPoint.id).length := by
          rw [List.length_map]; exact hj
        have hclash : (s.trackPoints.map TrackPoint.id).get ⟨k, hk2⟩
            = (s.trackPoints.map TrackPoint.id).get ⟨j, hj2⟩ := by
          simp only [List.get_eq_getElem, List.getElem_map]
          rw [List.get_eq_getElem] at hc hjid
          rw [hc, hjid]
        have hfin := (List.Nodup.get_inj_iff hnd).mp hclash
        simpa using hfin
      show (s.trackPoints.map _).get _ = _
      simp only [List.get_eq_getElem, List.getElem_map]
      rw [List.get_eq_getElem] at hkid
      simp [hkid]
  · intro hm
    show { s with trackPoints := _ } = s
    rw [map_if_eq_self _ id s.trackPoints hm]

/-- C8 witness: the amended behaviour on a concrete well-formed 2-point
state, updating the second point. -/
theorem updateTrackPoint_spec_witness :
    (updateTrackPoint (mkId 2) ⟨7, 8, 9⟩ twoPointState).trackPoints.length
      = twoPointState.trackPoints.length ∧
    (mkId 2 ∈ twoPointState.trackPoints.map TrackPoint.id →
      ∃ (j : Nat) (hj : j < twoPointState.trackPoints.length)
        (hj' : j < (updateTrackPoint (mkId 2) ⟨7, 8, 9⟩ twoPointState).trackPoints.length),
        (twoPointState.trackPoints.get ⟨j, hj⟩).id = mkId 2 ∧
        (updateTrackPoint (mkId 2) ⟨7, 8, 9⟩ twoPointState).trackPoints.get ⟨j, hj'⟩
          = { twoPointState.trackPoints.get ⟨j, hj⟩ with position := ⟨7, 8, 9⟩ } ∧
        (∀ (k : Nat) (hk : k < twoPointState.trackPoints.length)
          (hk' : k < (updateTrackPoint (mkId 2) ⟨7, 8, 9⟩
            twoPointState).trackPoints.length), k ≠ j →
          (updateTrackPoint (mkId 2) ⟨7, 8, 9⟩ twoPointState).trackPoints.get ⟨k, hk'⟩
            = twoPointState.trackPoints.get ⟨k, hk⟩)) ∧
    (mkId 2 ∉ twoPointState.trackPoints.map TrackPoint.id →
      updateTrackPoint (mkId 2) ⟨7, 8, 9⟩ twoPointState = twoPointState) :=
  updateTrackPoint_spec twoPointState (mkId 2) ⟨7, 8, 9⟩ (by decide)

/-- The direction computation, stated as the spec words it: default
`(1,0,0)` at index 0; otherwise normalize `pos - prev`, zero the y
component, and either fall back below magnitude `0.1` or re-normalize. -/
theorem loopDirection_eq_spec (l : List TrackPoint) (i : Nat) (pos : Vec3) :
    loopDirection l i pos =
      (if i = 0 then (⟨1, 0, 0⟩ : Vec3)
       else
         let d := (pos.sub (l.getD (i - 1) defaultPoint).position).normalize
         let d2 : Vec3 := ⟨d.x, 0, d.z⟩
         if d2.len < 0.1 then ⟨1, 0, 0⟩ else d2.normalize) := by
  unfold loopDirection
  by_cases h0 : i = 0
  · simp [h0]
  · simp [h0, Nat.pos_of_ne_zero h0]

/-- C6: the splice produced by `createLoopAtPoint` uses, for all emitted
points, the forward direction `(1,0,0)` when the anchor is at index 0,
and otherwise the normalized, y-zeroed, re-normalized predecessor
direction with the `0.1`-magnitude fallback. -/
theorem createLoop_direction_spec (s : RollerCoasterState) (id : String) (i : Nat)
    (hfi : s.trackPoints.findIdx? (fun p => p.id == id) = some i) :
    (createLoopAtPoint id s).trackPoints
      = s.trackPoints.take (i + 1)
        ++ (assignIds s.pointCounter
            (loopPositions (s.trackPoints.getD i defaultPoint).position
              (if i = 0 then (⟨1, 0, 0⟩ : Vec3)
               else
                 let d := ((s.trackPoints.getD i defaultPoint).position.sub
                   (s.trackPoints.getD (i - 1) defaultPoint).position).normalize
                 let d2 : Vec3 := ⟨d.x, 0, d.z⟩
                 if d2.len < 0.1 then ⟨1, 0, 0⟩ else d2.normalize))).1
        ++ s.trackPoints.drop (i + 1) := by
  simp only [createLoopAtPoint, hfi]
  rw [loopDirection_eq_spec]

/-- C6 witness: at a concrete 2-point state, looping at the second point
(index 1) splices the run computed with the spec's direction formula. -/
theorem createLoop_direction_spec_witness :
    (createLoopAtPoint (mkId 2) twoPointState).trackPoints
      = twoPointState.trackPoints.take 2
        ++ (assignIds twoPointState.pointCounter
            (loopPositions (twoPointState.trackPoints.getD 1 defaultPoint).position
              (if 1 = 0 then (⟨1, 0, 0⟩ : Vec3)
               else
                 let d := ((twoPointState.trackPoints.getD 1 defaultPoint).position.sub
                   (twoPointState.trackPoints.getD 0 defaultPoint).position).normalize
                 let d2 : Vec3 := ⟨d.x, 0, d.z⟩
                 if d2.len < 0.1 then ⟨1, 0, 0⟩ else d2.normalize))).1
        ++ twoPointState.trackPoints.drop 2 :=
  createLoop_direction_spec twoPointState (mkId 2) 1 (by decide)

/-- C10: on an existing id, `createLoopAtPoint` changes only
`trackPoints` (and the hidden id counter): every other field is
unchanged, and the points before/after the anchor's index are kept, in
order, around the inserted run. -/
theorem createLoop_frame_spec (s : RollerCoasterState) (id : String)
    (hm : id ∈ s.trackPoints.map TrackPoint.id) :
    ∃ (i : Nat) (inserted : List TrackPoint),
      s.trackPoints.findIdx? (fun p => p.id == id) = some i ∧
      (createLoopAtPoint id s).trackPoints
        = s.trackPoints.take (i + 1) ++ inserted ++ s.trackPoints.drop (i + 1) ∧
      (createLoopAtPoint id s).mode = s.mode ∧
      (createLoopAtPoint id s).selectedPointId = s.selectedPointId ∧
      (createLoopAtPoint id s).rideProgress = s.rideProgress ∧
      (createLoopAtPoint id s).isRiding = s.isRiding ∧
      (createLoopAtPoint id s).rideSpeed = s.rideSpeed ∧
      (createLoopAtPoint id s).isDraggingPoint = s.isDraggingPoint ∧
      (createLoopAtPoint id s).isAddingPoints = s.isAddingPoints ∧
      (createLoopAtPoint id s).isLooped = s.isLooped ∧
      (createLoopAtPoint id s).hasChainLift = s.hasChainLift ∧
      (createLoopAtPoint id s).showWoodSupports = s.showWoodSupports ∧
      (createLoopAtPoint id s).isNightMode = s.isNightMode ∧
      (createLoopAtPoint id s).cameraTarget = s.cameraTarget := by
  obtain ⟨p, hp, hpid⟩ := List.mem_map.mp hm
  have hfi : s.trackPoints.findIdx? (fun p => p.id == id)
      = some (s.trackPoints.findIdx (fun p => p.id == id)) :=
    List.findIdx?_eq_some_of_exists ⟨p, hp, by simp [hpid]⟩
  refine ⟨s.trackPoints.findIdx (fun p => p.id == id),
    (assignIds s.pointCounter
      (loopPositions
        (s.trackPoints.getD (s.trackPoints.findIdx (fun p => p.id == id))
          defaultPoint).position
        (loopDirection s.trackPoints (s.trackPoints.findIdx (fun p => p.id == id))
          (s.trackPoints.getD (s.trackPoints.findIdx (fun p => p.id == id))
            defaultPoint).position))).1,
    hfi, ?_, ?_, ?_, ?_, ?_, ?_, ?_, ?_, ?_, ?_, ?_, ?_, ?_⟩
  all_goals simp only [createLoopAtPoint, hfi]

/-- C10 witness: the frame property at a concrete 1-point state. -/
theorem createLoop_frame_spec_witness :
    ∃ (i : Nat) (inserted : List TrackPoint),
      onePointState.trackPoints.findIdx? (fun p => p.id == mkId 1) = some i ∧
      (createLoopAtPoint (mkId 1) onePointState).trackPoints
        = onePointState.trackPoints.take (i + 1) ++ inserted
          ++ onePointState.trackPoints.drop (i + 1) ∧
      (createLoopAtPoint (mkId 1) onePointState).mode = onePointState.mode ∧
      (createLoopAtPoint (mkId 1) onePointState).selectedPointId
        = onePointState.selectedPointId ∧
      (createLoopAtPoint (mkId 1) onePointState).rideProgress
        = onePointState.rideProgress ∧
      (createLoopAtPoint (mkId 1) onePointState).isRiding = onePointState.isRiding ∧
      (createLoopAtPoint (mkId 1) onePointState).rideSpeed = onePointState.rideSpeed ∧
      (createLoopAtPoint (mkId 1) onePointState).isDraggingPoint
        = onePointState.isDraggingPoint ∧
      (createLoopAtPoint (mkId 1) onePointState).isAddingPoints
        = onePointState.isAddingPoints ∧
      (createLoopAtPoint (mkId 1) onePointState).isLooped = onePointState.isLooped ∧
      (createLoopAtPoint (mkId 1) onePointState).hasChainLift
        = onePointState.hasChainLift ∧
      (createLoopAtPoint (mkId 1) onePointState).showWoodSupports
        = onePointState.showWoodSupports ∧
      (createLoopAtPoint (mkId 1) onePointState).isNightMode
        = onePointState.isNightMode ∧
      (createLoopAtPoint (mkId 1) onePointState).cameraTarget
        = onePointState.cameraTarget :=
  createLoop_frame_spec onePointState (mkId 1) (by decide)

theorem range17_filterMap (f : Nat → Vec3) :
    ((List.range (16 + 1)).filterMap fun i => if i = 0 ∨ i = 16 then none else some (f i))
      = (List.range 15).map fun k => f (k + 1) := by
  rfl

/-- Evaluation of the emitted positions for an anchor at the origin with
the default direction. -/
theorem loopPositions_origin :
    loopPositions ⟨0, 0, 0⟩ ⟨1, 0, 0⟩
      = ⟨3, 2, 0⟩ :: (((List.range 15).map fun k => specLoopBodyPoint (k + 1))
          ++ [⟨23, 2, 0⟩, ⟨28, 0, 0⟩]) := by
  simp only [loopPositions]
  rw [range17_filterMap]
  congr 1
  · rw [Vec3.mk.injEq]
    norm_num
  congr 1
  · apply List.map_congr_left
    intro k _
    have hangle : -Real.pi / 2 + ((k + 1 : Nat) : ℝ) / ((16 : Nat) : ℝ) * Real.pi * 2
        = specLoopAngle (k + 1) := by
      rw [specLoopAngle]
      push_cast
      ring
    rw [Vec3.mk.injEq, hangle, specLoopBodyPoint]
    refine ⟨by ring, by ring, by ring⟩
  · norm_num [Vec3.mk.injEq]

/-- C1: `createLoopAtPoint` on a single-point track at the origin inserts
exactly 18 new points directly after index 0: the lead-in at `(3,2,0)`,
the 15 loop-body points on the circle of radius 10 centred at `(10,10,0)`
at angles `-π/2 + (i/16)·2π` for `i = 1..15` (the top point, `i = 8`,
landing at `(10,20,0)`), and the lead-outs `(23,2,0)` and `(28,0,0)`;
every inserted point has tilt 0. -/
theorem createLoop_origin_spec (s : RollerCoasterState) (p : TrackPoint)
    (hpts : s.trackPoints = [p]) (hpos : p.position = ⟨0, 0, 0⟩) :
    ∃ newPts : List TrackPoint,
      (createLoopAtPoint p.id s).trackPoints = p :: newPts ∧
      newPts.length = 18 ∧
      newPts.map TrackPoint.position
        = ⟨3, 2, 0⟩ :: (((List.range 15).map fun k => specLoopBodyPoint (k + 1))
            ++ [⟨23, 2, 0⟩, ⟨28, 0, 0⟩]) ∧
      specLoopBodyPoint 8 = ⟨10, 20, 0⟩ ∧
      ∀ q ∈ newPts, q.tilt = 0 := by
  have hfi : s.trackPoints.findIdx? (fun q => q.id == p.id) = some 0 := by
    rw [hpts]
    simp [List.findIdx?_cons]
  have hget : s.trackPoints.getD 0 defaultPoint = p := by
    rw [hpts]
    rfl
  have hdir : loopDirection s.trackPoints 0 ((s.trackPoints.getD 0 defaultPoint).position)
      = ⟨1, 0, 0⟩ := by
    unfold loopDirection
    simp
  refine ⟨(assignIds s.pointCounter (loopPositions ⟨0, 0, 0⟩ ⟨1, 0, 0⟩)).1,
    ?_, ?_, ?_, ?_, ?_⟩
  · simp only [createLoopAtPoint, hfi]
    rw [hdir, hget, hpos, hpts]
    simp
  · rw [assignIds_length, loopPositions_origin]
    simp
  · rw [assignIds_map_position, loopPositions_origin]
  · have h8 : specLoopAngle 8 = Real.pi / 2 := by
      rw [specLoopAngle]
      push_cast
      ring
    rw [specLoopBodyPoint, h8, Real.cos_pi_div_two, Real.sin_pi_div_two, Vec3.mk.injEq]
    norm_num
  · exact assignIds_tilt _ _

/-- C1 witness: the loop insertion evaluated at the concrete one-point
state. -/
theorem createLoop_origin_spec_witness :
    ∃ newPts : List TrackPoint,
      (createLoopAtPoint pOne.id onePointState).trackPoints = pOne :: newPts ∧
      newPts.length = 18 ∧
      newPts.map TrackPoint.position
        = ⟨3, 2, 0⟩ :: (((List.range 15).map fun k => specLoopBodyPoint (k + 1))
            ++ [⟨23, 2, 0⟩, ⟨28, 0, 0⟩]) ∧
      specLoopBodyPoint 8 = ⟨10, 20, 0⟩ ∧
      ∀ q ∈ newPts, q.tilt = 0 :=
  createLoop_origin_spec onePointState pOne rfl rfl
